import Mathlib

/-!
Shallow embedding of the coffee-backend order service (src/app.py):
the Order data model, the four exposed operations (store_order,
get_recent_orders, mark_delivered, all_orders) and the date-bound
parsing helper _parse_iso_datetime, together with proofs of the
specification claims about them.

Modelling conventions:
* The SQLite table is a list of rows plus the autoincrement counter
  (`Store`).  Row ids are the INTEGER PRIMARY KEY values.
* Timestamps are second-precision wall-clock fields (the service
  formats them with strftime at second precision; no claim depends on
  sub-second resolution).
* The Python json module is external to the repository.  A stored
  order_json column value is modelled by `Blob`: the column can be SQL
  NULL, the empty string, a text that is valid JSON denoting a value
  (what json.dumps produces), or a non-empty text that is not valid
  JSON (on which json.loads raises).  JSON numbers are modelled as
  integers; no claim involves floating point.
* datetime.fromisoformat is modelled on its documented grammar, the
  strings datetime.isoformat can emit, which every CPython version the
  repository can run on (3.10 upward, from its `str | None` syntax)
  accepts: YYYY-MM-DD, optionally followed by a separator (any single
  character, the backward-compatibility behavior CPython keeps) and a
  time HH, HH:MM, HH:MM:SS or HH:MM:SS.digits, optionally followed by
  a UTC offset sign HH:MM with optional :SS and fractional part.
  Dates are validated against the real calendar (month 1..12, day
  within the month, leap years, hour 0..23, minute/second 0..59, year
  1..9999).  Fractional seconds and offsets are validated and then
  dropped: timestamps are compared at naive second precision, and no
  settled claim depends on the value parsed from such a bound, only
  on the fact that it does parse.  The 3.11-only extensions (basic
  YYYYMMDD, week dates) are version-dependent and outside the model.
* The id supplied to mark_delivered is a scalar JSON value (`ReqId`);
  Python truthiness of such a value is `ReqId.truthy`.  Primary-key
  lookup compares the supplied value with the integer id the way the
  SQLite integer column does (numeric text coerces, booleans are 0/1).
* Each HTTP handler is a pure function from its inputs and the store
  to a response and the next store; an uncaught exception (HTTP 500)
  is `Except.error`.
-/

namespace CoffeeBackend

/-- JSON values as stored in and returned from the order_json column. -/
inductive Json where
  | null
  | bool (b : Bool)
  | num (n : Int)
  | str (s : String)
  | arr (elems : List Json)
  | obj (fields : List (String × Json))

/-- A wall-clock timestamp at second precision, as compared and formatted
by the service. -/
structure DateTime where
  year : Nat
  month : Nat
  day : Nat
  hour : Nat
  minute : Nat
  second : Nat
deriving DecidableEq

/-- Chronological comparison of timestamps (the order the DateTime column
comparisons in the SQL filters and the ORDER BY use): lexicographic on
(year, month, day, hour, minute, second). -/
def dtLe (a b : DateTime) : Bool :=
  if a.year = b.year then
    if a.month = b.month then
      if a.day = b.day then
        if a.hour = b.hour then
          if a.minute = b.minute then decide (a.second ≤ b.second)
          else decide (a.minute < b.minute)
        else decide (a.hour < b.hour)
      else decide (a.day < b.day)
    else decide (a.month < b.month)
  else decide (a.year < b.year)

/-- Contents of the order_json text column.  json.dumps output is always
valid JSON text (`jsonText`); NULL and the empty string are the falsy
column values that the code replaces with the literal "[]" before
json.loads; any other non-JSON text is `corruptText`. -/
inductive Blob where
  | null
  | emptyText
  | jsonText (v : Json)
  | corruptText (s : String)

/-- One row of the Order table (class Order in app.py). -/
structure OrderRow where
  id : Nat
  timestamp : DateTime
  mode : Option String
  name : Option String
  emp_code : Option String
  room_no : Option String
  order_json : Blob
  delivered : Bool

/-- The persistent state: the Order table plus the autoincrement counter
for the INTEGER PRIMARY KEY. -/
structure Store where
  rows : List OrderRow
  nextId : Nat

/-- HTTP outcome of mark_delivered: 200, 400 with "Missing id", or 404
with "Order not found". -/
inductive Response where
  | ok
  | badRequest
  | notFound
deriving DecidableEq

/-- A scalar JSON value supplied as the id field of the mark_delivered
request body.  dict.get returns Python None both for an absent key and
for an explicit JSON null, so `null` covers both. -/
inductive ReqId where
  | null
  | bool (b : Bool)
  | num (n : Int)
  | str (s : String)
deriving DecidableEq

/-- Python truthiness of a scalar JSON value: None, False, 0 and the
empty string are falsy. -/
def ReqId.truthy : ReqId → Bool
  | .null => false
  | .bool b => b
  | .num n => decide (n ≠ 0)
  | .str s => decide (s ≠ "")

/-- Primary-key comparison of the supplied scalar against the INTEGER
id column, with the coercions the SQLite integer affinity performs:
numeric text converts to the number, Python booleans are 0/1, and
None matches nothing. -/
def ReqId.same (pk : ReqId) (rid : Nat) : Bool :=
  match pk with
  | .null => false
  | .bool b => decide ((if b then (1 : Int) else 0) = (rid : Int))
  | .num n => decide (n = (rid : Int))
  | .str s => decide (s.toInt? = some ((rid : Int)))

/-- The JSON body of a store_order request: every field optional
(absent keys).  Fields other than the order payload are free-form
strings. -/
structure StoreRequest where
  mode : Option String
  name : Option String
  emp_code : Option String
  room_no : Option String
  order : Option Json

/-- Numeric value of a decimal digit character, none otherwise. -/
def digitVal (c : Char) : Option Nat :=
  if c.isDigit then some (c.toNat - 48) else none

/-- Two decimal digits. -/
def num2 (a b : Char) : Option Nat := do
  let x ← digitVal a
  let y ← digitVal b
  pure (10 * x + y)

/-- Four decimal digits. -/
def num4 (a b c d : Char) : Option Nat := do
  let x ← num2 a b
  let y ← num2 c d
  pure (100 * x + y)

/-- Gregorian leap-year rule, as the Python datetime calendar uses. -/
def isLeapYear (y : Nat) : Bool :=
  (y % 4 = 0 && y % 100 ≠ 0) || y % 400 = 0

/-- Number of days of a month in a year. -/
def daysInMonth (y m : Nat) : Nat :=
  if m = 2 then (if isLeapYear y then 29 else 28)
  else if m = 4 ∨ m = 6 ∨ m = 9 ∨ m = 11 then 30
  else 31

/-- Calendar-validated date at midnight, none when out of range. -/
def mkDate (y mo d : Nat) : Option DateTime :=
  if 1 ≤ y ∧ y ≤ 9999 ∧ 1 ≤ mo ∧ mo ≤ 12 ∧ 1 ≤ d ∧ d ≤ daysInMonth y mo
  then some ⟨y, mo, d, 0, 0, 0⟩ else none

/-- Nonempty run of decimal digits (a fractional part). -/
def digitRun (l : List Char) : Bool :=
  !l.isEmpty && l.all (fun c => c.isDigit)

/-- The optional UTC-offset tail of a time: nothing, or a sign followed
by HH:MM, HH:MM:SS or HH:MM:SS.digits with the offset fields in range.
The offset is validated and then dropped: the service compares naive
wall-clock timestamps, and no settled claim depends on the value of an
offset-carrying bound, only on the fact that it parses. -/
def parseOffsetTail : List Char → Bool
  | [] => true
  | sign :: rest =>
      (sign == '+' || sign == '-') &&
      match rest with
      | [h1, h2, ':', m1, m2] =>
          (match num2 h1 h2, num2 m1 m2 with
           | some h, some mi => decide (h ≤ 23) && decide (mi ≤ 59)
           | _, _ => false)
      | [h1, h2, ':', m1, m2, ':', s1, s2] =>
          (match num2 h1 h2, num2 m1 m2, num2 s1 s2 with
           | some h, some mi, some sec =>
               decide (h ≤ 23) && decide (mi ≤ 59) && decide (sec ≤ 59)
           | _, _, _ => false)
      | h1 :: h2 :: ':' :: m1 :: m2 :: ':' :: s1 :: s2 :: '.' :: frac =>
          (match num2 h1 h2, num2 m1 m2, num2 s1 s2 with
           | some h, some mi, some sec =>
               decide (h ≤ 23) && decide (mi ≤ 59) && decide (sec ≤ 59) &&
               digitRun frac
           | _, _, _ => false)
      | _ => false

/-- The time part of a fromisoformat input: HH, HH:MM, HH:MM:SS or
HH:MM:SS.digits, each optionally followed by a UTC offset, with the
fields in range.  Fields omitted by the input are zero; the fractional
part is validated and truncated to the second precision the service
formats and compares at. -/
def parseTimeChars : List Char → Option (Nat × Nat × Nat)
  | h1 :: h2 :: rest =>
      (do
        let h ← num2 h1 h2
        if h ≤ 23 then
          match rest with
          | ':' :: m1 :: m2 :: rest2 => do
              let mi ← num2 m1 m2
              if mi ≤ 59 then
                match rest2 with
                | ':' :: s1 :: s2 :: rest3 => do
                    let sec ← num2 s1 s2
                    if sec ≤ 59 then
                      match rest3 with
                      | '.' :: frac =>
                          if digitRun (frac.takeWhile (fun c => c.isDigit)) &&
                              parseOffsetTail (frac.dropWhile (fun c => c.isDigit)) then
                            some (h, mi, sec)
                          else none
                      | tail =>
                          if parseOffsetTail tail then some (h, mi, sec) else none
                    else none
                | tail => if parseOffsetTail tail then some (h, mi, 0) else none
              else none
          | tail => if parseOffsetTail tail then some (h, 0, 0) else none
        else none)
  | _ => none

/-- Model of datetime.fromisoformat on the character list of the input,
per its documented grammar (the output of datetime.isoformat, accepted
by every CPython version since 3.7): a calendar-validated YYYY-MM-DD,
alone (midnight) or followed by a separator (any single character, the
backward-compatibility behavior CPython keeps) and a time with
optional minute, second, fractional and offset parts.  Anything else
raises, i.e. none; the 3.11-only extensions (basic YYYYMMDD, week
dates) are version-dependent and outside the model. -/
def fromisoChars : List Char → Option DateTime
  | y1 :: y2 :: y3 :: y4 :: '-' :: m1 :: m2 :: '-' :: d1 :: d2 :: rest => do
      let y ← num4 y1 y2 y3 y4
      let mo ← num2 m1 m2
      let d ← num2 d1 d2
      let base ← mkDate y mo d
      match rest with
      | [] => some base
      | _ :: timechars => do
          let hms ← parseTimeChars timechars
          some { base with hour := hms.1, minute := hms.2.1, second := hms.2.2 }
  | _ => none

/-- Model of datetime.fromisoformat on a string. -/
def fromisoformat (s : String) : Option DateTime :=
  fromisoChars s.data

/-- Python str.rstrip("Z"): remove every trailing Z character. -/
def rstripZ (s : String) : String :=
  String.mk ((s.data.reverse.dropWhile (fun c => c = 'Z')).reverse)

/-- The helper _parse_iso_datetime of app.py: a falsy value (absent or
empty) gives none; a 10-character value is parsed directly (bare date);
otherwise trailing Z markers are stripped and the rest parsed; a parse
failure is caught and gives none. -/
def _parse_iso_datetime : Option String → Option DateTime
  | none => none
  | some v =>
      if v = "" then none
      else if v.length = 10 then fromisoformat v
      else fromisoformat (rstripZ v)

/-- The condition `end_str and len(end_str) == 10` guarding the
widening of a bare-date end bound to 23:59:59. -/
def endStrIsBareDate : Option String → Bool
  | some es => decide (es ≠ "") && decide (es.length = 10)
  | none => false

/-- Model of json.loads(o.order_json or "[]"): the falsy column values
(NULL and the empty string) are replaced by the text "[]" and parse to
the empty array; valid JSON text yields its value; corrupt text makes
json.loads raise, which no handler catches. -/
def loadOrderItems : Blob → Except Unit Json
  | .null => .ok (Json.arr [])
  | .emptyText => .ok (Json.arr [])
  | .jsonText v => .ok v
  | .corruptText _ => .error ()

/-- Zero-padded decimal rendering used by strftime. -/
def padNum (width n : Nat) : String :=
  let s := toString n
  String.mk (List.replicate (width - s.length) '0') ++ s

/-- strftime("%Y-%m-%d %H:%M:%S") on a timestamp. -/
def DateTime.strftime (t : DateTime) : String :=
  padNum 4 t.year ++ "-" ++ padNum 2 t.month ++ "-" ++ padNum 2 t.day ++ " " ++
  padNum 2 t.hour ++ ":" ++ padNum 2 t.minute ++ ":" ++ padNum 2 t.second

/-- One element of the get_recent_orders response array (no delivered
field: the endpoint only returns undelivered rows). -/
structure RecentOut where
  id : Nat
  timestamp : String
  mode : Option String
  name : Option String
  emp_code : Option String
  room_no : Option String
  order : Json

/-- One element of the all_orders response array. -/
structure AllOut where
  id : Nat
  timestamp : String
  mode : Option String
  name : Option String
  emp_code : Option String
  room_no : Option String
  delivered : Bool
  order : Json

/-- Serialization of one row by get_recent_orders, including the
json.loads of the stored payload; the uncaught json.loads exception
propagates. -/
def serializeRecentRow (r : OrderRow) : Except Unit RecentOut :=
  match loadOrderItems r.order_json with
  | .error e => .error e
  | .ok items =>
      .ok ⟨r.id, r.timestamp.strftime, r.mode, r.name, r.emp_code, r.room_no, items⟩

/-- The response-building loop of get_recent_orders. -/
def serializeRecentRows : List OrderRow → Except Unit (List RecentOut)
  | [] => .ok []
  | r :: rest =>
      match serializeRecentRow r with
      | .error e => .error e
      | .ok x =>
          match serializeRecentRows rest with
          | .error e => .error e
          | .ok xs => .ok (x :: xs)

/-- Serialization of one row by all_orders. -/
def serializeAllRow (r : OrderRow) : Except Unit AllOut :=
  match loadOrderItems r.order_json with
  | .error e => .error e
  | .ok items =>
      .ok ⟨r.id, r.timestamp.strftime, r.mode, r.name, r.emp_code, r.room_no,
           r.delivered, items⟩

/-- The response-building loop of all_orders. -/
def serializeAllRows : List OrderRow → Except Unit (List AllOut)
  | [] => .ok []
  | r :: rest =>
      match serializeAllRow r with
      | .error e => .error e
      | .ok x =>
          match serializeAllRows rest with
          | .error e => .error e
          | .ok xs => .ok (x :: xs)

/-- Timestamp-descending order used by ORDER BY timestamp DESC:
row a precedes row b when a.timestamp is at least b.timestamp. -/
def tsDescRel (a b : OrderRow) : Prop :=
  dtLe b.timestamp a.timestamp = true

instance : DecidableRel tsDescRel :=
  fun a b => instDecidableEqBool (dtLe b.timestamp a.timestamp) true

/-- The row selection of get_recent_orders:
filter_by(delivered=False).order_by(timestamp desc).limit(20). -/
def selectRecentRows (s : Store) : List OrderRow :=
  (List.insertionSort tsDescRel
    (s.rows.filter (fun r => r.delivered = false))).take 20

/-- The get_recent_orders handler. -/
def get_recent_orders (s : Store) : Except Unit (List RecentOut) :=
  serializeRecentRows (selectRecentRows s)

/-- Order.query.get on the primary key. -/
def findRow (l : List OrderRow) (pk : ReqId) : Option OrderRow :=
  l.find? (fun r => pk.same r.id)

/-- Setting delivered on the row the primary-key lookup returned (the
first matching row). -/
def setDeliveredFirst : List OrderRow → ReqId → List OrderRow
  | [], _ => []
  | r :: rest, pk =>
      if pk.same r.id then { r with delivered := true } :: rest
      else r :: setDeliveredFirst rest pk

/-- The mark_delivered handler: 400 when the supplied id is falsy, 404
when the lookup finds no row, otherwise set delivered and commit. -/
def mark_delivered (pk : ReqId) (s : Store) : Response × Store :=
  if !pk.truthy then (.badRequest, s)
  else
    match findRow s.rows pk with
    | none => (.notFound, s)
    | some _ => (.ok, { s with rows := setDeliveredFirst s.rows pk })

/-- The store_order handler: defaults mode to "desk" and the payload to
the empty array, dumps the payload to the text column, inserts the row
with the next id and the current time, delivered defaulting to false;
returns the assigned id. -/
def store_order (req : StoreRequest) (now : DateTime) (s : Store) : Nat × Store :=
  let order_payload := req.order.getD (Json.arr [])
  let row : OrderRow :=
    { id := s.nextId, timestamp := now,
      mode := some (req.mode.getD "desk"),
      name := req.name, emp_code := req.emp_code, room_no := req.room_no,
      order_json := Blob.jsonText order_payload, delivered := false }
  (s.nextId, { rows := s.rows ++ [row], nextId := s.nextId + 1 })

/-- The row selection of all_orders: parse both bounds, apply
timestamp >= start when the start parsed, widen a bare-date end bound
to 23:59:59 and apply timestamp <= end when the end parsed, then order
by timestamp descending. -/
def all_orders_rows (s : Store) (start_str end_str : Option String) : List OrderRow :=
  let start_dt := _parse_iso_datetime start_str
  let end_dt := _parse_iso_datetime end_str
  let q1 :=
    match start_dt with
    | some sd => s.rows.filter (fun r => dtLe sd r.timestamp)
    | none => s.rows
  let q2 :=
    match end_dt with
    | some ed =>
        let ed2 :=
          if endStrIsBareDate end_str then
            { ed with hour := 23, minute := 59, second := 59 }
          else ed
        q1.filter (fun r => dtLe r.timestamp ed2)
    | none => q1
  List.insertionSort tsDescRel q2

/-- The all_orders handler. -/
def all_orders (s : Store) (start_str end_str : Option String) :
    Except Unit (List AllOut) :=
  serializeAllRows (all_orders_rows s start_str end_str)

/-- The four exposed operations, for statements quantifying over every
operation. -/
inductive Op where
  | store (req : StoreRequest) (now : DateTime)
  | recent
  | mark (pk : ReqId)
  | listAll (start_str end_str : Option String)

/-- Effect of one operation on the persistent state (the read-only
endpoints leave it unchanged). -/
def applyOp : Op → Store → Store
  | .store req now, s => (store_order req now s).2
  | .recent, s => s
  | .mark pk, s => (mark_delivered pk s).2
  | .listAll _ _, s => s

/-! Concrete fixtures used by the witness and counterexample theorems. -/

/-- A pending order with a structured payload, as in the spec's example
scenario. -/
def wRow1 : OrderRow :=
  ⟨1, ⟨2025, 8, 1, 10, 0, 0⟩, some "desk", some "Alice", none, some "Kitchen",
   Blob.jsonText (Json.arr [Json.obj [("item", Json.str "coffee"), ("sugar", Json.bool true)]]),
   false⟩

/-- A delivered order whose order_json column is NULL. -/
def wRow2 : OrderRow :=
  ⟨2, ⟨2025, 8, 2, 9, 0, 0⟩, some "desk", none, none, none, Blob.null, true⟩

/-- A pending order from the previous day. -/
def wRow3 : OrderRow :=
  ⟨3, ⟨2025, 7, 31, 9, 0, 0⟩, some "desk", none, none, none, Blob.emptyText, false⟩

/-- A small store with pending and delivered orders. -/
def wStore : Store := ⟨[wRow1, wRow2, wRow3], 4⟩

/-- A pending order whose persisted order_json text is not valid JSON. -/
def wCorruptRow : OrderRow :=
  ⟨1, ⟨2025, 8, 1, 10, 0, 0⟩, some "desk", none, none, none,
   Blob.corruptText "\x7b", false⟩

/-- A store holding only the corrupt-blob order. -/
def wCorruptStore : Store := ⟨[wCorruptRow], 2⟩

/-- The store before any order was submitted. -/
def wEmptyStore : Store := ⟨[], 1⟩

/-- The spec's example store_order request: name Alice, room Kitchen,
order [{"item": "coffee", "sugar": true}], mode absent. -/
def wReq : StoreRequest :=
  ⟨none, some "Alice", none, some "Kitchen",
   some (Json.arr [Json.obj [("item", Json.str "coffee"), ("sugar", Json.bool true)]])⟩

/-- The service clock at the moment of the example submission. -/
def wNow : DateTime := ⟨2025, 8, 1, 10, 0, 0⟩

/-! Order-theoretic facts about the timestamp comparison. -/

theorem dtLe_iff (a b : DateTime) : dtLe a b = true ↔
    (a.year < b.year ∨ (a.year = b.year ∧
      (a.month < b.month ∨ (a.month = b.month ∧
        (a.day < b.day ∨ (a.day = b.day ∧
          (a.hour < b.hour ∨ (a.hour = b.hour ∧
            (a.minute < b.minute ∨ (a.minute = b.minute ∧
              a.second ≤ b.second)))))))))) := by
  unfold dtLe
  split_ifs <;> simp_all

theorem dtLe_total (a b : DateTime) : dtLe a b = true ∨ dtLe b a = true := by
  rw [dtLe_iff, dtLe_iff]
  omega

theorem dtLe_trans {a b c : DateTime} (h1 : dtLe a b = true) (h2 : dtLe b c = true) :
    dtLe a c = true := by
  rw [dtLe_iff] at h1 h2 ⊢
  omega

instance : IsTotal OrderRow tsDescRel :=
  ⟨fun a b => dtLe_total b.timestamp a.timestamp⟩

instance : IsTrans OrderRow tsDescRel :=
  ⟨fun _ _ _ hab hbc => dtLe_trans hbc hab⟩

/-- Claim C4: the rows selected by ListPendingRecent number at most 20
and all have delivered = false. -/
theorem C4_recent_capped_and_pending (s : Store) :
    (selectRecentRows s).length ≤ 20 ∧
    ∀ r ∈ selectRecentRows s, r.delivered = false := by
  constructor
  · simp [selectRecentRows, List.length_take]
  · intro r hr
    have h1 : r ∈ List.insertionSort tsDescRel
        (s.rows.filter (fun r => r.delivered = false)) :=
      List.take_subset _ _ hr
    have h2 := (List.mem_insertionSort tsDescRel).mp h1
    simpa using (List.mem_filter.mp h2).2

/-- Witness for C4 on a concrete store: the bound holds and the selected
order wRow1 is pending. -/
theorem C4_recent_capped_and_pending_witness :
    (selectRecentRows wStore).length ≤ 20 ∧ wRow1.delivered = false := by
  refine ⟨(C4_recent_capped_and_pending wStore).1, ?_⟩
  exact (C4_recent_capped_and_pending wStore).2 wRow1 (List.mem_cons_self _ _)

/-- Claim C8: both ListPendingRecent and ListAll row selections are
pairwise ordered by descending timestamp: whenever row a appears before
row b, a.timestamp is at least b.timestamp (tsDescRel a b). -/
theorem C8_output_sorted_desc (s : Store) (start_str end_str : Option String) :
    List.Pairwise tsDescRel (selectRecentRows s) ∧
    List.Pairwise tsDescRel (all_orders_rows s start_str end_str) := by
  constructor
  · exact (List.sorted_insertionSort tsDescRel _).sublist (List.take_sublist _ _)
  · simp only [all_orders_rows]
    exact List.sorted_insertionSort tsDescRel _

/-- Claim C10: mark_delivered decides the missing-id error by Python
truthiness, so each falsy id value, 0, false, the empty string or
null/absent, yields BadRequest with the store untouched. -/
theorem C10_falsy_id_bad_request (s : Store) (pk : ReqId)
    (h : pk = ReqId.num 0 ∨ pk = ReqId.bool false ∨ pk = ReqId.str "" ∨ pk = ReqId.null) :
    mark_delivered pk s = (Response.badRequest, s) := by
  rcases h with h | h | h | h <;> subst h <;> rfl

/-- Witness for C10: the explicit id value 0 on a store that does have
orders yields BadRequest, not NotFound. -/
theorem C10_falsy_id_bad_request_witness :
    mark_delivered (ReqId.num 0) wStore = (Response.badRequest, wStore) :=
  C10_falsy_id_bad_request wStore (ReqId.num 0) (Or.inl rfl)

/-- Counterexample to C3 as stated: the bound "2025-08-01T10:00" is of
neither accepted shape (16 characters, so not a bare date, and lacking
the seconds of YYYY-MM-DDTHH:MM:SS), yet datetime.fromisoformat
accepts it, so the claim demands that all_orders treat it as absent
while the real handler filters on it: on a concrete store the bound
removes the previous-day row and the two result sequences differ. -/
theorem C3_nonaccepted_shape_still_filters_cex :
    _parse_iso_datetime (some "2025-08-01T10:00") = some ⟨2025, 8, 1, 10, 0, 0⟩ ∧
    (all_orders_rows wStore (some "2025-08-01T10:00") none).length = 2 ∧
    (all_orders_rows wStore none none).length = 3 ∧
    all_orders_rows wStore (some "2025-08-01T10:00") none ≠
      all_orders_rows wStore none none :=
  ⟨rfl, rfl, rfl, fun h => absurd (congrArg List.length h) (by decide)⟩

/-- Claim C3 amended: a bound string that datetime.fromisoformat
(after the code strips trailing Z markers) rejects imposes no filter:
all_orders with it equals all_orders with the bound omitted, on both
the start and the end side, with no error.  The claim's two "accepted
shapes" do not delimit that set: fromisoformat also accepts times
without seconds, any single-character date-time separator (space
included), fractional seconds and UTC offsets, and such bounds do
filter (see the counterexample). -/
theorem C3_unparseable_bound_ignored (s : Store) (bound : String)
    (hb : _parse_iso_datetime (some bound) = none) (other : Option String) :
    all_orders s (some bound) other = all_orders s none other ∧
    all_orders s other (some bound) = all_orders s other none := by
  have h1 : all_orders_rows s (some bound) other = all_orders_rows s none other := by
    unfold all_orders_rows
    rw [hb]
    rfl
  have h2 : all_orders_rows s other (some bound) = all_orders_rows s other none := by
    unfold all_orders_rows
    rw [hb]
    rfl
  exact ⟨congrArg serializeAllRows h1, congrArg serializeAllRows h2⟩

/-- Witness for C3 at the spec's example bound "not-a-date" on a
concrete store. -/
theorem C3_unparseable_bound_ignored_witness :
    all_orders wStore (some "not-a-date") none = all_orders wStore none none ∧
    all_orders wStore none (some "not-a-date") = all_orders wStore none none :=
  C3_unparseable_bound_ignored wStore "not-a-date" rfl none

/-- A validated date is midnight of its day. -/
theorem mkDate_midnight {y mo d : Nat} {t : DateTime} (h : mkDate y mo d = some t) :
    t.hour = 0 ∧ t.minute = 0 ∧ t.second = 0 := by
  unfold mkDate at h
  split at h
  · injection h with h
    subst h
    exact ⟨rfl, rfl, rfl⟩
  · cases h

/-- A 10-character input that fromisoformat accepts is a bare date and
parses to midnight. -/
theorem fromisoChars_len10_midnight {l : List Char} {t : DateTime}
    (hl : l.length = 10) (ht : fromisoChars l = some t) :
    t.hour = 0 ∧ t.minute = 0 ∧ t.second = 0 := by
  unfold fromisoChars at ht
  split at ht
  · rename_i y1 y2 y3 y4 m1 m2 d1 d2 rest
    have hrest : rest = [] := by
      have h0 : rest.length = 0 := by
        simp only [List.length_cons] at hl
        omega
      exact List.length_eq_zero.mp h0
    subst hrest
    simp only [Option.bind_eq_bind', Option.bind_eq_some] at ht
    obtain ⟨y, -, mo, -, d, -, base, hbase, hfin⟩ := ht
    have hbt : base = t := by
      simpa using hfin
    subst hbt
    exact mkDate_midnight hbase
  · cases ht

/-- The parse helper on a successfully parsed 10-character bound. -/
theorem parse_iso_of_len10 {ds : String} {t : DateTime}
    (hds : ds.length = 10) (ht : fromisoformat ds = some t) :
    _parse_iso_datetime (some ds) = some t := by
  have hne : ds ≠ "" := by
    intro h
    rw [h] at hds
    exact absurd hds (by decide)
  simp only [_parse_iso_datetime]
  rw [if_neg hne, if_pos hds]
  exact ht

/-- Claim C2: a bare-date start bound filters inclusively from midnight
of that day, a bare-date end bound filters inclusively up to 23:59:59
of that day, and with both bounds all_orders returns exactly the rows
whose timestamp lies in that closed range. -/
theorem C2_bare_date_bounds (s : Store) (ds de : String) (t u : DateTime)
    (hds : ds.length = 10) (hde : de.length = 10)
    (ht : fromisoformat ds = some t) (hu : fromisoformat de = some u) :
    (∀ r, r ∈ all_orders_rows s (some ds) none ↔
      (r ∈ s.rows ∧ dtLe t r.timestamp = true)) ∧
    (∀ r, r ∈ all_orders_rows s none (some de) ↔
      (r ∈ s.rows ∧ dtLe r.timestamp ⟨u.year, u.month, u.day, 23, 59, 59⟩ = true)) ∧
    (∀ r, r ∈ all_orders_rows s (some ds) (some de) ↔
      (r ∈ s.rows ∧ dtLe t r.timestamp = true ∧
        dtLe r.timestamp ⟨u.year, u.month, u.day, 23, 59, 59⟩ = true)) ∧
    (t.hour = 0 ∧ t.minute = 0 ∧ t.second = 0) ∧
    (u.hour = 0 ∧ u.minute = 0 ∧ u.second = 0) := by
  have hpds : _parse_iso_datetime (some ds) = some t := parse_iso_of_len10 hds ht
  have hpde : _parse_iso_datetime (some de) = some u := parse_iso_of_len10 hde hu
  have hne : de ≠ "" := by
    intro h
    rw [h] at hde
    exact absurd hde (by decide)
  have hbare : endStrIsBareDate (some de) = true := by
    simp [endStrIsBareDate, hne, hde]
  refine ⟨?_, ?_, ?_, fromisoChars_len10_midnight hds ht, fromisoChars_len10_midnight hde hu⟩
  · intro r
    unfold all_orders_rows
    rw [hpds]
    simp [List.mem_filter, _parse_iso_datetime]
  · intro r
    unfold all_orders_rows
    rw [hpde, hbare]
    simp [List.mem_filter, _parse_iso_datetime]
  · intro r
    unfold all_orders_rows
    rw [hpds, hpde, hbare]
    simp only [List.mem_insertionSort, List.mem_filter, Bool.and_eq_true, and_assoc]
    tauto

/-- Counterexample to C5 as stated: the id value 0 is supplied (neither
absent nor the empty string) and no order with id 0 exists, so the
claim demands NotFound, but the handler answers BadRequest because it
tests Python truthiness. -/
theorem C5_exactness_cex :
    mark_delivered (ReqId.num 0) wEmptyStore = (Response.badRequest, wEmptyStore) ∧
    Response.badRequest ≠ Response.notFound :=
  ⟨rfl, by decide⟩

/-- Claim C5 amended: BadRequest exactly when the supplied id is falsy
(absent, null, false, 0 or the empty string), NotFound exactly when the
id is truthy but matches no stored order, success otherwise; both error
paths leave the store unchanged. -/
theorem C5_amended_error_split (pk : ReqId) (s : Store) :
    (pk.truthy = false → mark_delivered pk s = (Response.badRequest, s)) ∧
    (pk.truthy = true → findRow s.rows pk = none →
      mark_delivered pk s = (Response.notFound, s)) ∧
    (pk.truthy = true → (findRow s.rows pk).isSome = true →
      (mark_delivered pk s).1 = Response.ok) := by
  refine ⟨?_, ?_, ?_⟩
  · intro h
    simp [mark_delivered, h]
  · intro h1 h2
    simp [mark_delivered, h1, h2]
  · intro h1 h2
    cases hf : findRow s.rows pk with
    | none => rw [hf] at h2; cases h2
    | some r0 => simp [mark_delivered, h1, hf]

/-- Witness for the amended C5, exercising all three branches on
concrete stores. -/
theorem C5_amended_error_split_witness :
    mark_delivered ReqId.null wStore = (Response.badRequest, wStore) ∧
    mark_delivered (ReqId.num 9) wStore = (Response.notFound, wStore) ∧
    (mark_delivered (ReqId.num 1) wStore).1 = Response.ok :=
  ⟨(C5_amended_error_split ReqId.null wStore).1 rfl,
   (C5_amended_error_split (ReqId.num 9) wStore).2.1 rfl rfl,
   (C5_amended_error_split (ReqId.num 1) wStore).2.2 rfl rfl⟩

/-- Marking the first matching row again changes nothing: the updated
row keeps its id, so the same row is found and re-updated to the same
value. -/
theorem setDeliveredFirst_idem (l : List OrderRow) (pk : ReqId) :
    setDeliveredFirst (setDeliveredFirst l pk) pk = setDeliveredFirst l pk := by
  induction l with
  | nil => rfl
  | cons a rest ih =>
    by_cases ha : pk.same a.id = true
    · simp [setDeliveredFirst, ha]
    · simp [setDeliveredFirst, ha, ih]

/-- After setDeliveredFirst on a list containing a matching row, the
lookup finds a matching row that is delivered. -/
theorem findRow_setDeliveredFirst {l : List OrderRow} {pk : ReqId}
    (h : ∃ r ∈ l, pk.same r.id = true) :
    ∃ r2, findRow (setDeliveredFirst l pk) pk = some r2 ∧
      pk.same r2.id = true ∧ r2.delivered = true := by
  induction l with
  | nil => obtain ⟨r, hr, -⟩ := h; cases hr
  | cons a rest ih =>
    by_cases ha : pk.same a.id = true
    · refine ⟨{ a with delivered := true }, ?_, by simpa using ha, rfl⟩
      simp [findRow, setDeliveredFirst, ha, List.find?_cons]
    · obtain ⟨r, hr, hpr⟩ := h
      rcases List.mem_cons.mp hr with rfl | hr2
      · exact absurd hpr ha
      · obtain ⟨r2, h1, h2, h3⟩ := ih ⟨r, hr2, hpr⟩
        refine ⟨r2, ?_, h2, h3⟩
        simpa [findRow, setDeliveredFirst, ha, List.find?_cons] using h1

/-- Claim C6: marking an existing (nonzero-id) order twice succeeds
both times, leaves the order delivered, and the second call does not
change the store at all. -/
theorem C6_mark_delivered_idempotent (s : Store) (n : Int) (hn : n ≠ 0)
    (hex : ∃ r ∈ s.rows, (ReqId.num n).same r.id = true) :
    (mark_delivered (ReqId.num n) s).1 = Response.ok ∧
    (mark_delivered (ReqId.num n) (mark_delivered (ReqId.num n) s).2).1 =
      Response.ok ∧
    (mark_delivered (ReqId.num n) (mark_delivered (ReqId.num n) s).2).2 =
      (mark_delivered (ReqId.num n) s).2 ∧
    ∃ r2 ∈ (mark_delivered (ReqId.num n) s).2.rows,
      (ReqId.num n).same r2.id = true ∧ r2.delivered = true := by
  have htr : (ReqId.num n).truthy = true := by simp [ReqId.truthy, hn]
  have hfind1 : (findRow s.rows (ReqId.num n)).isSome = true := by
    rw [findRow, List.find?_isSome]
    obtain ⟨r, hr, hpr⟩ := hex
    exact ⟨r, hr, hpr⟩
  obtain ⟨r0, hf0⟩ := Option.isSome_iff_exists.mp hfind1
  have hstep1 : mark_delivered (ReqId.num n) s =
      (Response.ok, { s with rows := setDeliveredFirst s.rows (ReqId.num n) }) := by
    simp [mark_delivered, htr, findRow] at hf0 ⊢
    simp [hf0, findRow]
  obtain ⟨r2, hr2find, hr2same, hr2del⟩ := findRow_setDeliveredFirst hex
  have hstep2 : mark_delivered (ReqId.num n)
      { s with rows := setDeliveredFirst s.rows (ReqId.num n) } =
      (Response.ok, { s with rows := setDeliveredFirst s.rows (ReqId.num n) }) := by
    simp only [mark_delivered, htr, Bool.not_true, Bool.false_eq_true, if_false,
      hr2find, setDeliveredFirst_idem]
  refine ⟨by rw [hstep1], by rw [hstep1, hstep2], by rw [hstep1, hstep2], ?_⟩
  rw [hstep1]
  exact ⟨r2, List.mem_of_find?_eq_some hr2find, hr2same, hr2del⟩

/-- Witness for C6 on a concrete store and the existing id 1. -/
theorem C6_mark_delivered_idempotent_witness :
    (mark_delivered (ReqId.num 1) wStore).1 = Response.ok ∧
    (mark_delivered (ReqId.num 1) (mark_delivered (ReqId.num 1) wStore).2).1 =
      Response.ok ∧
    (mark_delivered (ReqId.num 1) (mark_delivered (ReqId.num 1) wStore).2).2 =
      (mark_delivered (ReqId.num 1) wStore).2 ∧
    ∃ r2 ∈ (mark_delivered (ReqId.num 1) wStore).2.rows,
      (ReqId.num 1).same r2.id = true ∧ r2.delivered = true :=
  C6_mark_delivered_idempotent wStore 1 (by decide)
    ⟨wRow1, List.mem_cons_self _ _, rfl⟩

/-- Rows already delivered stay delivered (with their id) after the
delivery update of any single row. -/
theorem setDeliveredFirst_keeps (l : List OrderRow) (pk : ReqId) :
    ∀ r ∈ l, r.delivered = true →
      ∃ r2 ∈ setDeliveredFirst l pk, r2.id = r.id ∧ r2.delivered = true := by
  induction l with
  | nil => intro r hr; cases hr
  | cons a rest ih =>
    intro r hr hd
    by_cases ha : pk.same a.id = true
    · rcases List.mem_cons.mp hr with rfl | hr2
      · exact ⟨{ r with delivered := true },
          by simp [setDeliveredFirst, ha], rfl, rfl⟩
      · exact ⟨r, by simp [setDeliveredFirst, ha, hr2], rfl, hd⟩
    · rcases List.mem_cons.mp hr with rfl | hr2
      · exact ⟨r, by simp [setDeliveredFirst, ha], rfl, hd⟩
      · obtain ⟨r2, h1, h2, h3⟩ := ih r hr2 hd
        exact ⟨r2, by simp [setDeliveredFirst, ha, h1], h2, h3⟩

/-- Claim C9: the delivered flag is one-way: after any exposed
operation, an order that was delivered still is (matched by id). -/
theorem C9_delivered_one_way (op : Op) (s : Store) (r : OrderRow)
    (hr : r ∈ s.rows) (hd : r.delivered = true) :
    ∃ r2 ∈ (applyOp op s).rows, r2.id = r.id ∧ r2.delivered = true := by
  cases op with
  | store req now =>
    exact ⟨r, by simp [applyOp, store_order, hr], rfl, hd⟩
  | recent => exact ⟨r, hr, rfl, hd⟩
  | mark pk =>
    by_cases htr : pk.truthy = true
    · cases hf : findRow s.rows pk with
      | none =>
        exact ⟨r, by simp [applyOp, mark_delivered, htr, hf, hr], rfl, hd⟩
      | some r0 =>
        have hkeep := setDeliveredFirst_keeps s.rows pk r hr hd
        simpa [applyOp, mark_delivered, htr, hf] using hkeep
    · have htr2 : pk.truthy = false := by simpa using htr
      exact ⟨r, by simp [applyOp, mark_delivered, htr2, hr], rfl, hd⟩
  | listAll st en => exact ⟨r, hr, rfl, hd⟩

/-- Witness for C9: the delivered order wRow2 stays delivered across a
mark_delivered call aimed at another order. -/
theorem C9_delivered_one_way_witness :
    ∃ r2 ∈ (applyOp (Op.mark (ReqId.num 1)) wStore).rows,
      r2.id = wRow2.id ∧ r2.delivered = true :=
  C9_delivered_one_way (Op.mark (ReqId.num 1)) wStore wRow2
    (List.Mem.tail _ (List.Mem.head _)) rfl

/-- Witness for C2: the spec's scenario start="2025-08-01",
end="2025-08-01" on a concrete store admits the row stamped
2025-08-01 10:00:00. -/
theorem C2_bare_date_bounds_witness :
    wRow1 ∈ all_orders_rows wStore (some "2025-08-01") (some "2025-08-01") := by
  have h := (C2_bare_date_bounds wStore "2025-08-01" "2025-08-01"
    ⟨2025, 8, 1, 0, 0, 0⟩ ⟨2025, 8, 1, 0, 0, 0⟩ (by decide) (by decide) rfl rfl).2.2.1
  exact (h wRow1).mpr ⟨List.mem_cons_self _ _, by decide, by decide⟩

/-- find? skips a whole first segment on which the predicate fails. -/
theorem find?_append_right {p : OrderRow → Bool} {l1 l2 : List OrderRow}
    (h : ∀ r ∈ l1, p r = false) : (l1 ++ l2).find? p = l2.find? p := by
  induction l1 with
  | nil => rfl
  | cons a rest ih =>
    have ha := h a (List.mem_cons_self _ _)
    simp only [List.cons_append, List.find?_cons, ha]
    exact ih (fun r hr => h r (List.mem_cons.mpr (Or.inr hr)))

/-- The get_recent_orders response builds whenever every selected row's
payload loads. -/
theorem serializeRecentRows_ok {l : List OrderRow}
    (h : ∀ r ∈ l, ∃ v, loadOrderItems r.order_json = Except.ok v) :
    ∃ out, serializeRecentRows l = Except.ok out := by
  induction l with
  | nil => exact ⟨[], rfl⟩
  | cons a rest ih =>
    obtain ⟨v, hv⟩ := h a (List.mem_cons_self _ _)
    obtain ⟨out, hout⟩ := ih (fun r hr => h r (List.mem_cons.mpr (Or.inr hr)))
    refine ⟨⟨a.id, a.timestamp.strftime, a.mode, a.name, a.emp_code,
      a.room_no, v⟩ :: out, ?_⟩
    simp [serializeRecentRows, serializeRecentRow, hv, hout]

/-- The all_orders response builds whenever every selected row's
payload loads. -/
theorem serializeAllRows_ok {l : List OrderRow}
    (h : ∀ r ∈ l, ∃ v, loadOrderItems r.order_json = Except.ok v) :
    ∃ out, serializeAllRows l = Except.ok out := by
  induction l with
  | nil => exact ⟨[], rfl⟩
  | cons a rest ih =>
    obtain ⟨v, hv⟩ := h a (List.mem_cons_self _ _)
    obtain ⟨out, hout⟩ := ih (fun r hr => h r (List.mem_cons.mpr (Or.inr hr)))
    refine ⟨⟨a.id, a.timestamp.strftime, a.mode, a.name, a.emp_code,
      a.room_no, a.delivered, v⟩ :: out, ?_⟩
    simp [serializeAllRows, serializeAllRow, hv, hout]

/-- A selected row's serialization appears in the successfully built
all_orders response. -/
theorem serializeAllRows_mem {l : List OrderRow} {out : List AllOut}
    (hout : serializeAllRows l = Except.ok out) {r : OrderRow} {x : AllOut}
    (hr : r ∈ l) (hx : serializeAllRow r = Except.ok x) : x ∈ out := by
  induction l generalizing out with
  | nil => cases hr
  | cons a rest ih =>
    rcases List.mem_cons.mp hr with rfl | hr2
    · rw [serializeAllRows, hx] at hout
      cases hrest : serializeAllRows rest with
      | error e => rw [hrest] at hout; cases hout
      | ok xs =>
        rw [hrest] at hout
        injection hout with h
        subst h
        exact List.mem_cons_self _ _
    · cases ha : serializeAllRow a with
      | error e => rw [serializeAllRows, ha] at hout; cases hout
      | ok y =>
        cases hrest : serializeAllRows rest with
        | error e => rw [serializeAllRows, ha, hrest] at hout; cases hout
        | ok xs =>
          rw [serializeAllRows, ha, hrest] at hout
          injection hout with h
          subst h
          exact List.mem_cons.mpr (Or.inr (ih hrest hr2))

/-- Rows selected by get_recent_orders come from the table. -/
theorem mem_selectRecentRows {s : Store} {r : OrderRow}
    (hr : r ∈ selectRecentRows s) : r ∈ s.rows := by
  have h1 := List.take_subset _ _ hr
  have h2 := (List.mem_insertionSort tsDescRel).mp h1
  exact (List.mem_filter.mp h2).1

/-- Rows selected by all_orders come from the table. -/
theorem mem_all_orders_rows {s : Store} {st en : Option String} {r : OrderRow}
    (hr : r ∈ all_orders_rows s st en) : r ∈ s.rows := by
  unfold all_orders_rows at hr
  rcases h1 : _parse_iso_datetime st with - | sd <;>
    rcases h2 : _parse_iso_datetime en with - | ed <;>
      rw [h1, h2] at hr <;>
        simp [List.mem_filter] at hr <;>
          tauto

/-- A row whose stored payload is not corrupt text always loads. -/
theorem loadable_of_not_corrupt {r : OrderRow}
    (h : ∀ c, r.order_json ≠ Blob.corruptText c) :
    ∃ v, loadOrderItems r.order_json = Except.ok v := by
  cases hb : r.order_json with
  | null => exact ⟨Json.arr [], rfl⟩
  | emptyText => exact ⟨Json.arr [], rfl⟩
  | jsonText v => exact ⟨v, rfl⟩
  | corruptText c => exact absurd hb (h c)

/-- Claim C7: store_order returns the fresh id; the inserted row holds
the request fields with mode defaulted to desk, the payload defaulted
to the empty array and delivered false; looking the id up finds exactly
that row; and all_orders returns the submitted payload structurally
unchanged for it. -/
theorem C7_store_roundtrip (s : Store) (req : StoreRequest) (now : DateTime)
    (hwf : ∀ r ∈ s.rows, r.id < s.nextId)
    (hload : ∀ r ∈ s.rows, ∃ v, loadOrderItems r.order_json = Except.ok v) :
    (store_order req now s).1 = s.nextId ∧
    (store_order req now s).2.rows = s.rows ++
      [⟨s.nextId, now, some (req.mode.getD "desk"), req.name, req.emp_code,
        req.room_no, Blob.jsonText (req.order.getD (Json.arr [])), false⟩] ∧
    findRow (store_order req now s).2.rows (ReqId.num (s.nextId : Int)) =
      some ⟨s.nextId, now, some (req.mode.getD "desk"), req.name, req.emp_code,
        req.room_no, Blob.jsonText (req.order.getD (Json.arr [])), false⟩ ∧
    ∃ out, all_orders (store_order req now s).2 none none = Except.ok out ∧
      (⟨s.nextId, now.strftime, some (req.mode.getD "desk"), req.name,
        req.emp_code, req.room_no, false,
        req.order.getD (Json.arr [])⟩ : AllOut) ∈ out := by
  refine ⟨rfl, rfl, ?_, ?_⟩
  · show (s.rows ++ [_]).find? _ = _
    rw [find?_append_right ?_]
    · simp [List.find?_cons, ReqId.same]
    · intro r hr
      have := hwf r hr
      simp only [ReqId.same, decide_eq_false_iff_not]
      omega
  · have hsub : ∀ r ∈ (store_order req now s).2.rows,
        ∃ v, loadOrderItems r.order_json = Except.ok v := by
      intro r hr
      rcases List.mem_append.mp hr with hmem | hmem
      · exact hload r hmem
      · rcases List.mem_singleton.mp hmem with rfl
        exact ⟨req.order.getD (Json.arr []), rfl⟩
    obtain ⟨out, hout⟩ :=
      serializeAllRows_ok
        (l := all_orders_rows (store_order req now s).2 none none)
        (fun r hr => hsub r (mem_all_orders_rows hr))
    refine ⟨out, hout, ?_⟩
    refine serializeAllRows_mem hout
      (r := ⟨s.nextId, now, some (req.mode.getD "desk"), req.name, req.emp_code,
        req.room_no, Blob.jsonText (req.order.getD (Json.arr [])), false⟩) ?_ rfl
    show _ ∈ List.insertionSort tsDescRel (store_order req now s).2.rows
    rw [List.mem_insertionSort]
    exact List.mem_append.mpr (Or.inr (List.mem_singleton_self _))

/-- Witness for C7: the spec's example submission on the empty store:
all_orders then contains id 1, mode desk, Alice, Kitchen, delivered
false and the submitted payload unchanged. -/
theorem C7_store_roundtrip_witness :
    ∃ out, all_orders (store_order wReq wNow wEmptyStore).2 none none = Except.ok out ∧
      (⟨1, wNow.strftime, some "desk", some "Alice", none, some "Kitchen", false,
        Json.arr [Json.obj [("item", Json.str "coffee"),
          ("sugar", Json.bool true)]]⟩ : AllOut) ∈ out := by
  have h := (C7_store_roundtrip wEmptyStore wReq wNow
    (by intro r hr; cases hr) (by intro r hr; cases hr)).2.2.2
  exact h

/-- Counterexample to C1 as stated: a store whose only order has a
corrupt (non-empty, not-JSON) order_items blob makes both list calls
fail with the uncaught json.loads exception instead of returning the
order with an empty item list. -/
theorem C1_corrupt_blob_crashes_cex :
    get_recent_orders wCorruptStore = Except.error () ∧
    all_orders wCorruptStore none none = Except.error () :=
  ⟨rfl, rfl⟩

/-- Claim C1 amended: the fail-open deserialization covers only the
falsy column values: when no stored blob is corrupt non-empty text,
both list calls succeed, and a NULL or empty-string blob yields the
empty item sequence; a corrupt non-empty blob instead crashes the call
(see the counterexample). -/
theorem C1_amended_fail_open (s : Store)
    (h : ∀ r ∈ s.rows, ∀ c, r.order_json ≠ Blob.corruptText c) :
    (∃ out, get_recent_orders s = Except.ok out) ∧
    (∀ st en, ∃ out, all_orders s st en = Except.ok out) ∧
    (∀ r ∈ s.rows, (r.order_json = Blob.null ∨ r.order_json = Blob.emptyText) →
      loadOrderItems r.order_json = Except.ok (Json.arr [])) := by
  refine ⟨?_, ?_, ?_⟩
  · exact serializeRecentRows_ok
      (fun r hr => loadable_of_not_corrupt (h r (mem_selectRecentRows hr)))
  · intro st en
    exact serializeAllRows_ok
      (fun r hr => loadable_of_not_corrupt (h r (mem_all_orders_rows hr)))
  · intro r hr hb
    rcases hb with hb | hb <;> rw [hb] <;> rfl

/-- Witness for the amended C1 on a concrete store with a NULL blob and
an empty-string blob. -/
theorem C1_amended_fail_open_witness :
    ∃ out, get_recent_orders wStore = Except.ok out :=
  (C1_amended_fail_open wStore (by
    intro r hr c
    simp [wStore] at hr
    rcases hr with rfl | rfl | rfl <;> simp [wRow1, wRow2, wRow3])).1

end CoffeeBackend
